import Mathlib

/-
Verification of the multi-agent research coordinator and its shared state
manager.  The definitions below are a shallow embedding of the JavaScript
and TypeScript sources: `decomposeQuery`, `delegateTask` and
`executeSubtasks` from the coordinator, the `StateManager` methods
`areSubtasksComplete` and `cleanup` from the shared state module, and the
agent registration route handler.  Network effects are modelled by an
explicit fetch oracle; the event trace records is what the loop did and in
which order.  Timestamp bookkeeping on subtask records is elided because no
control flow reads it; task and session records keep their timestamps since
the cleanup sweep reads them.
-/

namespace AgentApps

/-- Result of one HTTP fetch: either a response with a status code and a
JSON body, or a network-level failure (timeout, connection refused) whose
message becomes the thrown error message. -/
inductive FetchResult where
  | response (status : Nat) (body : String)
  | netError (msg : String)
deriving DecidableEq, Repr

/-- A fetch oracle: given the request timeout and the id of the subtask
being delegated, what the network does.  Each subtask is delegated at most
once, so keying the oracle by subtask id is faithful. -/
abbrev FetchOracle := Nat → String → FetchResult

/-- Registered agent entry in the coordinator agents map: name, url and
advertised capability list. -/
structure AgentInfo where
  name : String
  url : String
  capabilities : List String
deriving DecidableEq, Repr

/-- findAgentsByCapability: the registered agents whose capability list
contains the required capability, in registration order. -/
def findAgentsByCapability (agents : List AgentInfo) (capability : String) :
    List AgentInfo :=
  agents.filter (fun a => a.capabilities.contains capability)

/-- Subtask as produced by decomposeQuery, before it is stored. -/
structure SubtaskSpec where
  type : String
  description : String
  capability : String
  priority : Int
  dependsOn : Option (List String)
deriving DecidableEq, Repr

/-- decomposeQuery: always one research subtask of priority 1; a summarize
subtask of priority 2 depending on research is appended exactly when the
depth is comprehensive or detailed. -/
def decomposeQuery (query : String) (depth : String) : List SubtaskSpec :=
  let research : SubtaskSpec :=
    { type := "research"
      description := "Gather information about: " ++ query
      capability := "search"
      priority := 1
      dependsOn := none }
  let summarize : SubtaskSpec :=
    { type := "summarize"
      description := "Summarize research findings"
      capability := "summarize"
      priority := 2
      dependsOn := some ["research"] }
  if depth = "comprehensive" ∨ depth = "detailed" then
    [research, summarize]
  else
    [research]

/-- Result payload stored on a subtask record: either the JSON body a
worker returned, or an error object with a message field. -/
inductive SubResult where
  | payload (body : String)
  | errorMsg (msg : String)
deriving DecidableEq, Repr

/-- Subtask record as stored by StateManager.addSubtask: the decomposition
fields plus an id of the form taskId-index, a status and an optional
result. -/
structure Subtask where
  id : String
  type : String
  description : String
  capability : String
  priority : Int
  dependsOn : Option (List String)
  status : String
  result : Option SubResult
deriving DecidableEq, Repr

/-- StateManager.addSubtask applied to the specs from position i onward:
the spec at position i receives id taskId-i (the id encodes the current
length of the subtask list) and status pending. -/
def addSubtasksFrom (taskId : String) (i : Nat) : List SubtaskSpec → List Subtask
  | [] => []
  | spec :: rest =>
      { id := taskId ++ "-" ++ toString i
        type := spec.type
        description := spec.description
        capability := spec.capability
        priority := spec.priority
        dependsOn := spec.dependsOn
        status := "pending"
        result := none } :: addSubtasksFrom taskId (i + 1) rest

/-- StateManager.addSubtask applied to every spec in order: the i-th spec
receives id taskId-i and status pending. -/
def addSubtasks (taskId : String) (specs : List SubtaskSpec) : List Subtask :=
  addSubtasksFrom taskId 0 specs

/-- Coordinator configuration module (config.js) with its default values. -/
structure Config where
  port : Nat
  serverUrl : String
  maxConcurrentTasks : Nat
  taskTimeout : Nat
  retryAttempts : Nat
  retryDelay : Nat
deriving DecidableEq, Repr

/-- The default configuration values from config.js. -/
def defaultConfig : Config :=
  { port := 4000
    serverUrl := "http://localhost:3000"
    maxConcurrentTasks := 5
    taskTimeout := 30000
    retryAttempts := 3
    retryDelay := 1000 }

/-- delegateTask: one POST to the agent with the configured timeout; a
non-2xx status throws an error naming the status, a network failure
propagates its message, and a 2xx response returns the body. -/
def delegateTask (fetchO : FetchOracle) (timeout : Nat) (sid : String) :
    Except String String :=
  match fetchO timeout sid with
  | .response status body =>
      if 200 ≤ status ∧ status ≤ 299 then .ok body
      else .error ("Agent returned " ++ toString status)
  | .netError m => .error m

/-- One observable event of the delegation loop, tagged with the id of the
subtask being processed.  A post event records the delegation target url
and the timeout passed to fetch. -/
inductive Event where
  | skip (sid : String)
  | noAgent (sid : String)
  | post (sid : String) (url : String) (timeout : Nat)
  | completed (sid : String)
  | failed (sid : String) (msg : String)
deriving DecidableEq, Repr

/-- The subtask id an event is tagged with. -/
def Event.sid : Event → String
  | .skip s => s
  | .noAgent s => s
  | .post s _ _ => s
  | .completed s => s
  | .failed s _ => s

/-- Whether an event is a delegation POST for the given subtask id. -/
def isPostFor (sid : String) : Event → Bool
  | .post s _ _ => s == sid
  | _ => false

/-- State threaded through the delegation loop: the in-run results map
keyed by subtask type (most recent write first), the per-agent stored
results (StateManager.storeResult), the subtask records of the task, and
the event trace. -/
structure ExecState where
  results : List (String × String)
  agentResults : List (String × String)
  subs : List Subtask
  trace : List Event
deriving DecidableEq, Repr

/-- The dependency check of the loop: no declared dependencies means met;
otherwise every named dependency must have an entry in the results map. -/
def dependenciesMet (results : List (String × String)) :
    Option (List String) → Bool
  | none => true
  | some deps => deps.all (fun d => (results.lookup d).isSome)

/-- StateManager.updateSubtask restricted to the subtask list of one task:
the first record with the given id gets the new status, and the result is
overwritten only when one is supplied. -/
def updateSubtaskIn (subs : List Subtask) (sid : String) (status : String)
    (result : Option SubResult) : List Subtask :=
  match subs with
  | [] => []
  | st :: rest =>
      if st.id = sid then
        { st with
          status := status
          result := match result with
            | some r => some r
            | none => st.result } :: rest
      else st :: updateSubtaskIn rest sid status result

/-- The events one loop iteration emits for the subtask it processes. -/
def stepEvents (agents : List AgentInfo) (fetchO : FetchOracle) (cfg : Config)
    (s : ExecState) (st : Subtask) : List Event :=
  if dependenciesMet s.results st.dependsOn then
    match findAgentsByCapability agents st.capability with
    | [] => [.noAgent st.id]
    | a :: _ =>
        match delegateTask fetchO cfg.taskTimeout st.id with
        | .ok _ => [.post st.id a.url cfg.taskTimeout, .completed st.id]
        | .error e => [.post st.id a.url cfg.taskTimeout, .failed st.id e]
  else
    [.skip st.id]

/-- One iteration of the executeSubtasks loop: skip on an unmet dependency,
fail with a fixed error when no registered agent has the capability, and
otherwise delegate to the first capable agent, recording success or
failure on the subtask record and in the results maps. -/
def execStep (agents : List AgentInfo) (fetchO : FetchOracle) (cfg : Config)
    (s : ExecState) (st : Subtask) : ExecState :=
  if dependenciesMet s.results st.dependsOn then
    match findAgentsByCapability agents st.capability with
    | [] =>
        { s with
          subs := updateSubtaskIn s.subs st.id "failed"
            (some (.errorMsg "No capable agent available"))
          trace := s.trace ++ [.noAgent st.id] }
    | a :: _ =>
        let subs1 := updateSubtaskIn s.subs st.id "in-progress" none
        match delegateTask fetchO cfg.taskTimeout st.id with
        | .ok body =>
            { results := (st.type, body) :: s.results
              agentResults := (a.name, body) :: s.agentResults
              subs := updateSubtaskIn subs1 st.id "completed"
                (some (.payload body))
              trace := s.trace ++
                [.post st.id a.url cfg.taskTimeout, .completed st.id] }
        | .error e =>
            { s with
              subs := updateSubtaskIn subs1 st.id "failed"
                (some (.errorMsg e))
              trace := s.trace ++
                [.post st.id a.url cfg.taskTimeout, .failed st.id e] }
  else
    { s with trace := s.trace ++ [.skip st.id] }

/-- Stable insertion of a subtask into a priority-sorted list, matching the
stable ascending sort of the source. -/
def insertByPriority (x : Subtask) : List Subtask → List Subtask
  | [] => [x]
  | y :: ys =>
      if x.priority < y.priority then x :: y :: ys
      else y :: insertByPriority x ys

/-- The ascending stable sort by priority the loop applies first. -/
def sortByPriority (l : List Subtask) : List Subtask :=
  l.foldr insertByPriority []

/-- The loop state before the first iteration: empty results and trace,
and the subtask records of the task. -/
def initState (subs : List Subtask) : ExecState :=
  { results := [], agentResults := [], subs := subs, trace := [] }

/-- executeSubtasks: sort the subtasks by ascending priority and run the
loop body over them sequentially. -/
def executeSubtasks (agents : List AgentInfo) (fetchO : FetchOracle)
    (cfg : Config) (subtasks : List Subtask) : ExecState :=
  (sortByPriority subtasks).foldl (execStep agents fetchO cfg)
    (initState subtasks)

/-- Task record as stored by StateManager.createTask and mutated by the
research route.  The aggregated report payload is elided; statuses,
subtask records, stored results and timestamps are kept. -/
structure TaskRec where
  id : String
  status : String
  query : String
  depth : String
  createdAt : Int
  updatedAt : Int
  subtasks : List Subtask
  results : List (String × String)
deriving DecidableEq, Repr

/-- StateManager.createTask: a fresh pending task with no subtasks. -/
def createTask (now : Int) (taskId query depth : String) : TaskRec :=
  { id := taskId
    status := "pending"
    query := query
    depth := depth
    createdAt := now
    updatedAt := now
    subtasks := []
    results := [] }

/-- StateManager.updateTask: set the status and refresh updatedAt. -/
def updateTask (now : Int) (t : TaskRec) (status : String) : TaskRec :=
  { t with status := status, updatedAt := now }

/-- The POST research route: reject an empty query, otherwise create the
task, add the decomposed subtasks, mark it in-progress, run the delegation
loop, and unconditionally mark the task completed.  Returns the final task
record and the loop trace, or none when no task was created. -/
def handleResearch (agents : List AgentInfo) (fetchO : FetchOracle)
    (cfg : Config) (now : Int) (taskId query : String)
    (depth? : Option String) : Option (TaskRec × List Event) :=
  if query = "" then none
  else
    let depth := depth?.getD "basic"
    let t0 := createTask now taskId query depth
    let t1 := { t0 with
      subtasks := addSubtasks taskId (decomposeQuery query depth) }
    let t2 := updateTask now t1 "in-progress"
    let ex := executeSubtasks agents fetchO cfg t2.subtasks
    let t3 := { t2 with subtasks := ex.subs, results := ex.agentResults }
    some (updateTask now t3 "completed", ex.trace)

/-- StateManager.areSubtasksComplete over the task map: false for a
missing task or an empty subtask list, otherwise true exactly when every
subtask is completed or failed. -/
def areSubtasksComplete (tasks : List (String × TaskRec))
    (taskId : String) : Bool :=
  match tasks.lookup taskId with
  | none => false
  | some t =>
      if t.subtasks.isEmpty then false
      else t.subtasks.all (fun st =>
        st.status == "completed" || st.status == "failed")

/-- Session record: only the timestamp the cleanup sweep reads. -/
structure StoredSession where
  createdAt : Int
  updatedAt : Int
deriving DecidableEq, Repr

/-- Agent status entry in StateManager.agentStatus: the status flag and
the last-seen timestamp the sweep reads. -/
structure StoredAgent where
  status : String
  lastSeen : Int
deriving DecidableEq, Repr

/-- The whole in-memory state the cleanup sweep walks. -/
structure StateRec where
  tasks : List (String × TaskRec)
  sessions : List (String × StoredSession)
  agentStatus : List (String × StoredAgent)
deriving DecidableEq, Repr

/-- The deletion condition of the task sweep: stale beyond maxAge and in a
terminal status. -/
def taskExpired (now maxAge : Int) (t : TaskRec) : Bool :=
  now - t.updatedAt > maxAge &&
    (t.status == "completed" || t.status == "failed")

/-- StateManager.cleanup: delete terminal tasks older than maxAge, delete
sessions older than maxAge, and flag agents silent for more than 60
seconds as offline without removing them. -/
def cleanup (now maxAge : Int) (s : StateRec) : StateRec :=
  { tasks := s.tasks.filter (fun p => !taskExpired now maxAge p.2)
    sessions := s.sessions.filter (fun p => !(now - p.2.updatedAt > maxAge))
    agentStatus := s.agentStatus.map (fun p =>
      if now - p.2.lastSeen > 60000 then
        (p.1, { p.2 with status := "offline" })
      else p) }

/-- The cleanup sweep as invoked by the five-minute interval timer, with
the default maxAge of one hour. -/
def cleanupDefault (now : Int) (s : StateRec) : StateRec :=
  cleanup now 3600000 s

/-- Agent record in the registration storage of the framework app. -/
structure RegAgent where
  id : String
  name : String
  apiKey : String
deriving DecidableEq, Repr

/-- The trim call of the registration route: strip leading and trailing
whitespace from the name, written over the character list so that it
evaluates. -/
def jsTrim (s : String) : String :=
  ⟨((s.data.dropWhile Char.isWhitespace).reverse.dropWhile
      Char.isWhitespace).reverse⟩

/-- The registration route POST handler: 400 for a missing, empty or
overlong name, 409 when the name is already taken (storage untouched),
otherwise 201 with a fresh agent appended to storage. -/
def registerPOST (agents : List RegAgent) (name? : Option String)
    (newId newKey : String) : Nat × String × List RegAgent :=
  match name? with
  | none => (400, "Name is required and must be a non-empty string", agents)
  | some name =>
      if (jsTrim name).length = 0 then
        (400, "Name is required and must be a non-empty string", agents)
      else if name.length > 50 then
        (400, "Name must be 50 characters or less", agents)
      else
        match agents.find? (fun a => a.name == name) with
        | some _ => (409, "Name already taken", agents)
        | none =>
            (201, "Welcome " ++ name ++ "! Use this API key for all requests.",
              agents ++ [{ id := newId, name := name, apiKey := newKey }])

/-- Look up the first subtask record with the given id, as
task.subtasks.find does in the state manager. -/
def findSub : List Subtask → String → Option Subtask
  | [], _ => none
  | st :: rest, sid => if st.id = sid then some st else findSub rest sid

/-! Helper lemmas about string ids, the sort, and the loop body. -/

theorem String.append_left_cancel {a b c : String} (h : a ++ b = a ++ c) :
    b = c := by
  have hd := congrArg String.data h
  simp [String.data_append] at hd
  exact String.ext hd

theorem append_ne_of_ne (a : String) {b c : String} (h : b ≠ c) :
    a ++ b ≠ a ++ c :=
  fun he => h (String.append_left_cancel he)

theorem mem_insertByPriority {a x : Subtask} {l : List Subtask} :
    a ∈ insertByPriority x l ↔ a = x ∨ a ∈ l := by
  induction l with
  | nil => simp [insertByPriority]
  | cons y ys ih =>
      simp only [insertByPriority]
      split
      · simp [List.mem_cons]
      · simp [List.mem_cons, ih]
        tauto

theorem pairwise_insertByPriority {x : Subtask} {l : List Subtask}
    (h : l.Pairwise (fun a b => a.priority ≤ b.priority)) :
    (insertByPriority x l).Pairwise (fun a b => a.priority ≤ b.priority) := by
  induction l with
  | nil => simp [insertByPriority]
  | cons y ys ih =>
      rw [List.pairwise_cons] at h
      obtain ⟨hy, hys⟩ := h
      simp only [insertByPriority]
      split
      case isTrue hlt =>
        rw [List.pairwise_cons]
        refine ⟨?_, List.pairwise_cons.mpr ⟨hy, hys⟩⟩
        intro b hb
        rcases List.mem_cons.mp hb with rfl | hb
        · exact le_of_lt hlt
        · exact le_trans (le_of_lt hlt) (hy b hb)
      case isFalse hge =>
        rw [List.pairwise_cons]
        refine ⟨?_, ih hys⟩
        intro b hb
        rcases mem_insertByPriority.mp hb with rfl | hb
        · exact le_of_not_lt hge
        · exact hy b hb

theorem sortByPriority_pairwise (l : List Subtask) :
    (sortByPriority l).Pairwise (fun a b => a.priority ≤ b.priority) := by
  induction l with
  | nil => simp [sortByPriority]
  | cons x xs ih => exact pairwise_insertByPriority ih

theorem mem_sortByPriority {a : Subtask} {l : List Subtask} :
    a ∈ sortByPriority l ↔ a ∈ l := by
  induction l with
  | nil => simp [sortByPriority]
  | cons x xs ih =>
      show a ∈ insertByPriority x (sortByPriority xs) ↔ _
      rw [mem_insertByPriority, ih]
      simp [List.mem_cons]

theorem countP_insertByPriority (p : Subtask → Bool) (x : Subtask)
    (l : List Subtask) :
    (insertByPriority x l).countP p = l.countP p + (if p x then 1 else 0) := by
  induction l with
  | nil => simp [insertByPriority, List.countP_cons]
  | cons y ys ih =>
      simp only [insertByPriority]
      split
      · simp only [List.countP_cons]
      · simp only [List.countP_cons, ih]
        omega

theorem countP_sortByPriority (p : Subtask → Bool) (l : List Subtask) :
    (sortByPriority l).countP p = l.countP p := by
  induction l with
  | nil => rfl
  | cons x xs ih =>
      show (insertByPriority x (sortByPriority xs)).countP p = _
      rw [countP_insertByPriority, ih, List.countP_cons]

theorem execStep_trace (agents : List AgentInfo) (fetchO : FetchOracle)
    (cfg : Config) (s : ExecState) (st : Subtask) :
    (execStep agents fetchO cfg s st).trace =
      s.trace ++ stepEvents agents fetchO cfg s st := by
  unfold execStep stepEvents
  split
  · split
    · rfl
    · split <;> rfl
  · rfl

theorem execStep_skip {agents : List AgentInfo} {fetchO : FetchOracle}
    {cfg : Config} {s : ExecState} {st : Subtask}
    (hdep : dependenciesMet s.results st.dependsOn = false) :
    execStep agents fetchO cfg s st =
      { s with trace := s.trace ++ [.skip st.id] } := by
  unfold execStep
  rw [hdep]
  simp

theorem execStep_noAgent {agents : List AgentInfo} {fetchO : FetchOracle}
    {cfg : Config} {s : ExecState} {st : Subtask}
    (hdep : dependenciesMet s.results st.dependsOn = true)
    (hcap : findAgentsByCapability agents st.capability = []) :
    execStep agents fetchO cfg s st =
      { s with
        subs := updateSubtaskIn s.subs st.id "failed"
          (some (.errorMsg "No capable agent available"))
        trace := s.trace ++ [.noAgent st.id] } := by
  unfold execStep
  rw [hdep, hcap]
  simp

theorem execStep_delegate_error {agents : List AgentInfo}
    {fetchO : FetchOracle} {cfg : Config} {s : ExecState} {st : Subtask}
    {a : AgentInfo} {rest : List AgentInfo} {e : String}
    (hdep : dependenciesMet s.results st.dependsOn = true)
    (hcap : findAgentsByCapability agents st.capability = a :: rest)
    (herr : delegateTask fetchO cfg.taskTimeout st.id = .error e) :
    execStep agents fetchO cfg s st =
      { s with
        subs := updateSubtaskIn
          (updateSubtaskIn s.subs st.id "in-progress" none)
          st.id "failed" (some (.errorMsg e))
        trace := s.trace ++
          [.post st.id a.url cfg.taskTimeout, .failed st.id e] } := by
  unfold execStep
  rw [hdep, hcap]
  simp only [herr]
  simp

theorem execStep_delegate_ok {agents : List AgentInfo}
    {fetchO : FetchOracle} {cfg : Config} {s : ExecState} {st : Subtask}
    {a : AgentInfo} {rest : List AgentInfo} {body : String}
    (hdep : dependenciesMet s.results st.dependsOn = true)
    (hcap : findAgentsByCapability agents st.capability = a :: rest)
    (hok : delegateTask fetchO cfg.taskTimeout st.id = .ok body) :
    execStep agents fetchO cfg s st =
      { results := (st.type, body) :: s.results
        agentResults := (a.name, body) :: s.agentResults
        subs := updateSubtaskIn
          (updateSubtaskIn s.subs st.id "in-progress" none)
          st.id "completed" (some (.payload body))
        trace := s.trace ++
          [.post st.id a.url cfg.taskTimeout, .completed st.id] } := by
  unfold execStep
  rw [hdep, hcap]
  simp only [hok]
  simp

theorem stepEvents_sid {agents : List AgentInfo} {fetchO : FetchOracle}
    {cfg : Config} {s : ExecState} {st : Subtask} {e : Event}
    (h : e ∈ stepEvents agents fetchO cfg s st) : e.sid = st.id := by
  unfold stepEvents at h
  split at h
  · split at h
    · simp at h
      subst h
      rfl
    · split at h <;>
        (rcases List.mem_cons.mp h with rfl | h₂
         · rfl
         · simp at h₂
           subst h₂
           rfl)
  · simp at h
    subst h
    rfl

theorem stepEvents_ne_nil (agents : List AgentInfo) (fetchO : FetchOracle)
    (cfg : Config) (s : ExecState) (st : Subtask) :
    stepEvents agents fetchO cfg s st ≠ [] := by
  unfold stepEvents
  split
  · split
    · simp
    · split <;> simp
  · simp

theorem stepEvents_post_dependenciesMet {agents : List AgentInfo}
    {fetchO : FetchOracle} {cfg : Config} {s : ExecState} {st : Subtask}
    {sid u : String} {t : Nat}
    (h : Event.post sid u t ∈ stepEvents agents fetchO cfg s st) :
    dependenciesMet s.results st.dependsOn = true := by
  unfold stepEvents at h
  split at h
  · assumption
  · simp at h

theorem stepEvents_post_timeout {agents : List AgentInfo}
    {fetchO : FetchOracle} {cfg : Config} {s : ExecState} {st : Subtask}
    {sid u : String} {t : Nat}
    (h : Event.post sid u t ∈ stepEvents agents fetchO cfg s st) :
    t = cfg.taskTimeout := by
  unfold stepEvents at h
  split at h
  · split at h
    · simp at h
    · split at h <;> (simp at h; tauto)
  · simp at h

theorem countP_stepEvents_le (agents : List AgentInfo) (fetchO : FetchOracle)
    (cfg : Config) (s : ExecState) (st : Subtask) (sid : String) :
    (stepEvents agents fetchO cfg s st).countP (isPostFor sid) ≤ 1 := by
  unfold stepEvents
  split
  · split
    · simp [List.countP_cons, isPostFor]
    · split <;> simp [List.countP_cons, isPostFor] <;> split <;> simp
  · simp [List.countP_cons, isPostFor]

theorem countP_stepEvents_ne {agents : List AgentInfo} {fetchO : FetchOracle}
    {cfg : Config} {s : ExecState} {st : Subtask} {sid : String}
    (h : st.id ≠ sid) :
    (stepEvents agents fetchO cfg s st).countP (isPostFor sid) = 0 := by
  unfold stepEvents
  split
  · split
    · simp [List.countP_cons, isPostFor]
    · split <;> simp [List.countP_cons, isPostFor, h]
  · simp [List.countP_cons, isPostFor]

theorem findSub_updateSubtaskIn_ne {subs : List Subtask}
    {sid sid' status : String} {r : Option SubResult} (h : sid ≠ sid') :
    findSub (updateSubtaskIn subs sid' status r) sid = findSub subs sid := by
  induction subs with
  | nil => rfl
  | cons st rest ih =>
      simp only [updateSubtaskIn]
      split
      case isTrue heq =>
        show findSub (_ :: rest) sid = _
        simp only [findSub]
        rw [if_neg, if_neg]
        · rw [heq]
          exact fun hc => h hc.symm
        · show ¬ st.id = sid
          rw [heq]
          exact fun hc => h hc.symm
      case isFalse hne =>
        show findSub (st :: _) sid = _
        simp only [findSub]
        split
        · rfl
        · exact ih

theorem findSub_execStep_ne {agents : List AgentInfo} {fetchO : FetchOracle}
    {cfg : Config} {s : ExecState} {st : Subtask} {sid : String}
    (h : sid ≠ st.id) :
    findSub (execStep agents fetchO cfg s st).subs sid =
      findSub s.subs sid := by
  unfold execStep
  split
  · split
    · simp only
      rw [findSub_updateSubtaskIn_ne h]
    · split <;>
        (simp only
         rw [findSub_updateSubtaskIn_ne h, findSub_updateSubtaskIn_ne h])
  · rfl

theorem findSub_foldl_ne (agents : List AgentInfo) (fetchO : FetchOracle)
    (cfg : Config) (l : List Subtask) (s : ExecState) (sid : String)
    (h : ∀ st ∈ l, st.id ≠ sid) :
    findSub (l.foldl (execStep agents fetchO cfg) s).subs sid =
      findSub s.subs sid := by
  induction l generalizing s with
  | nil => rfl
  | cons st rest ih =>
      rw [List.foldl_cons, ih _ (fun x hx => h x (List.mem_cons_of_mem st hx)),
        findSub_execStep_ne (fun hc => h st (List.mem_cons_self st rest) hc.symm)]

theorem foldl_trace_append (agents : List AgentInfo) (fetchO : FetchOracle)
    (cfg : Config) (l : List Subtask) (s : ExecState) :
    ∃ tail, (l.foldl (execStep agents fetchO cfg) s).trace =
      s.trace ++ tail := by
  induction l generalizing s with
  | nil => exact ⟨[], by simp⟩
  | cons st rest ih =>
      obtain ⟨tail, htail⟩ := ih (execStep agents fetchO cfg s st)
      exact ⟨stepEvents agents fetchO cfg s st ++ tail, by
        rw [List.foldl_cons, htail, execStep_trace, List.append_assoc]⟩

theorem mem_trace_foldl (agents : List AgentInfo) (fetchO : FetchOracle)
    (cfg : Config) (l : List Subtask) (s : ExecState) {e : Event}
    (h : e ∈ s.trace) :
    e ∈ (l.foldl (execStep agents fetchO cfg) s).trace := by
  obtain ⟨tail, htail⟩ := foldl_trace_append agents fetchO cfg l s
  rw [htail]
  exact List.mem_append_left _ h

theorem foldl_attempted (agents : List AgentInfo) (fetchO : FetchOracle)
    (cfg : Config) (l : List Subtask) (s : ExecState) :
    ∀ st ∈ l, ∃ e ∈ (l.foldl (execStep agents fetchO cfg) s).trace,
      e.sid = st.id := by
  induction l generalizing s with
  | nil => intro st hst; simp at hst
  | cons hd rest ih =>
      intro st hst
      rcases List.mem_cons.mp hst with rfl | hst
      · obtain ⟨e, he⟩ :=
          List.exists_mem_of_ne_nil _ (stepEvents_ne_nil agents fetchO cfg s st)
        refine ⟨e, ?_, stepEvents_sid he⟩
        rw [List.foldl_cons]
        apply mem_trace_foldl
        rw [execStep_trace]
        exact List.mem_append_right _ he
      · rw [List.foldl_cons]
        exact ih (execStep agents fetchO cfg s hd) st hst

theorem countP_foldl_trace_le (agents : List AgentInfo) (fetchO : FetchOracle)
    (cfg : Config) (l : List Subtask) (s : ExecState) (sid : String) :
    (l.foldl (execStep agents fetchO cfg) s).trace.countP (isPostFor sid) ≤
      s.trace.countP (isPostFor sid) +
        l.countP (fun st => st.id == sid) := by
  induction l generalizing s with
  | nil => simp
  | cons st rest ih =>
      rw [List.foldl_cons, List.countP_cons]
      refine le_trans (ih (execStep agents fetchO cfg s st)) ?_
      rw [execStep_trace, List.countP_append]
      by_cases hid : st.id = sid
      · have := countP_stepEvents_le agents fetchO cfg s st sid
        simp only [hid]
        simp
        omega
      · rw [countP_stepEvents_ne hid]
        simp [hid]

theorem countP_foldl_trace_zero (agents : List AgentInfo)
    (fetchO : FetchOracle) (cfg : Config) (l : List Subtask) (s : ExecState)
    (sid : String) (h : ∀ st ∈ l, st.id ≠ sid) :
    (l.foldl (execStep agents fetchO cfg) s).trace.countP (isPostFor sid) =
      s.trace.countP (isPostFor sid) := by
  induction l generalizing s with
  | nil => rfl
  | cons st rest ih =>
      rw [List.foldl_cons,
        ih _ (fun x hx => h x (List.mem_cons_of_mem st hx)),
        execStep_trace, List.countP_append,
        countP_stepEvents_ne (h st (List.mem_cons_self st rest))]
      omega

theorem post_timeout_foldl (agents : List AgentInfo) (fetchO : FetchOracle)
    (cfg : Config) (l : List Subtask) (s : ExecState) {sid u : String}
    {t : Nat}
    (h : Event.post sid u t ∈ (l.foldl (execStep agents fetchO cfg) s).trace) :
    Event.post sid u t ∈ s.trace ∨ t = cfg.taskTimeout := by
  induction l generalizing s with
  | nil => exact Or.inl h
  | cons st rest ih =>
      rw [List.foldl_cons] at h
      rcases ih (execStep agents fetchO cfg s st) h with hmem | ht
      · rw [execStep_trace] at hmem
        rcases List.mem_append.mp hmem with hmem | hmem
        · exact Or.inl hmem
        · exact Or.inr (stepEvents_post_timeout hmem)
      · exact Or.inr ht

theorem execStep_taskTimeout (agents : List AgentInfo) (fetchO : FetchOracle)
    {c c' : Config} (h : c.taskTimeout = c'.taskTimeout) (s : ExecState)
    (st : Subtask) :
    execStep agents fetchO c s st = execStep agents fetchO c' s st := by
  unfold execStep
  rw [h]

theorem executeSubtasks_taskTimeout (agents : List AgentInfo)
    (fetchO : FetchOracle) {c c' : Config}
    (h : c.taskTimeout = c'.taskTimeout) (subtasks : List Subtask) :
    executeSubtasks agents fetchO c subtasks =
      executeSubtasks agents fetchO c' subtasks := by
  unfold executeSubtasks
  congr 1
  funext s st
  exact execStep_taskTimeout agents fetchO h s st

/-! Step characterizations with the loop state given by its four
components, convenient for symbolic execution of short runs. -/

theorem execStep_mk_skip (agents : List AgentInfo) (fetchO : FetchOracle)
    (cfg : Config) (res ar : List (String × String)) (subs : List Subtask)
    (tr : List Event) (st : Subtask)
    (h : dependenciesMet res st.dependsOn = false) :
    execStep agents fetchO cfg ⟨res, ar, subs, tr⟩ st =
      ⟨res, ar, subs, tr ++ [.skip st.id]⟩ :=
  execStep_skip h

theorem execStep_mk_noAgent (agents : List AgentInfo) (fetchO : FetchOracle)
    (cfg : Config) (res ar : List (String × String)) (subs : List Subtask)
    (tr : List Event) (st : Subtask)
    (h : dependenciesMet res st.dependsOn = true)
    (hcap : findAgentsByCapability agents st.capability = []) :
    execStep agents fetchO cfg ⟨res, ar, subs, tr⟩ st =
      ⟨res, ar,
        updateSubtaskIn subs st.id "failed"
          (some (.errorMsg "No capable agent available")),
        tr ++ [.noAgent st.id]⟩ :=
  execStep_noAgent h hcap

theorem execStep_mk_error (agents : List AgentInfo) (fetchO : FetchOracle)
    (cfg : Config) (res ar : List (String × String)) (subs : List Subtask)
    (tr : List Event) (st : Subtask) (a : AgentInfo)
    (rest : List AgentInfo) (e : String)
    (h : dependenciesMet res st.dependsOn = true)
    (hcap : findAgentsByCapability agents st.capability = a :: rest)
    (herr : delegateTask fetchO cfg.taskTimeout st.id = .error e) :
    execStep agents fetchO cfg ⟨res, ar, subs, tr⟩ st =
      ⟨res, ar,
        updateSubtaskIn (updateSubtaskIn subs st.id "in-progress" none)
          st.id "failed" (some (.errorMsg e)),
        tr ++ [.post st.id a.url cfg.taskTimeout, .failed st.id e]⟩ :=
  execStep_delegate_error h hcap herr

theorem execStep_mk_ok (agents : List AgentInfo) (fetchO : FetchOracle)
    (cfg : Config) (res ar : List (String × String)) (subs : List Subtask)
    (tr : List Event) (st : Subtask) (a : AgentInfo)
    (rest : List AgentInfo) (body : String)
    (h : dependenciesMet res st.dependsOn = true)
    (hcap : findAgentsByCapability agents st.capability = a :: rest)
    (hok : delegateTask fetchO cfg.taskTimeout st.id = .ok body) :
    execStep agents fetchO cfg ⟨res, ar, subs, tr⟩ st =
      ⟨(st.type, body) :: res, (a.name, body) :: ar,
        updateSubtaskIn (updateSubtaskIn subs st.id "in-progress" none)
          st.id "completed" (some (.payload body)),
        tr ++ [.post st.id a.url cfg.taskTimeout, .completed st.id]⟩ :=
  execStep_delegate_ok h hcap hok

/-- Symbolic execution of a two-subtask run shaped like a detailed or
comprehensive decomposition: whenever a POST for the summarize subtask
appears in the trace, the research subtask completed strictly before it
and its result is in the results map at the end of the run. -/
theorem summarize_after_research (agents : List AgentInfo)
    (fetchO : FetchOracle) (cfg : Config) (r s : Subtask) (u : String)
    (t : Nat)
    (hrdep : r.dependsOn = none)
    (hsdep : s.dependsOn = some ["research"])
    (hrtype : r.type = "research")
    (hstype : s.type = "summarize")
    (hrpri : r.priority = 1) (hspri : s.priority = 2)
    (hne : r.id ≠ s.id)
    (hpost : Event.post s.id u t ∈
      (executeSubtasks agents fetchO cfg [r, s]).trace) :
    [Event.completed r.id, Event.post s.id u t].Sublist
      (executeSubtasks agents fetchO cfg [r, s]).trace ∧
    ((executeSubtasks agents fetchO cfg [r, s]).results.lookup
      "research").isSome = true := by
  have hsort : sortByPriority [r, s] = [r, s] := by
    simp [sortByPriority, insertByPriority, hrpri, hspri]
  have hfold : executeSubtasks agents fetchO cfg [r, s] =
      execStep agents fetchO cfg
        (execStep agents fetchO cfg ⟨[], [], [r, s], []⟩ r) s := by
    unfold executeSubtasks
    rw [hsort]
    rfl
  rw [hfold] at hpost ⊢
  have hdepR : dependenciesMet [] r.dependsOn = true := by
    rw [hrdep]
    rfl
  cases hcapR : findAgentsByCapability agents r.capability with
  | nil =>
      rw [execStep_mk_noAgent agents fetchO cfg [] [] [r, s] [] r hdepR
        hcapR] at hpost ⊢
      rw [execStep_mk_skip agents fetchO cfg [] _ _ _ s
        (by rw [hsdep]; rfl)] at hpost ⊢
      simp at hpost
  | cons a arest =>
      cases hD : delegateTask fetchO cfg.taskTimeout r.id with
      | error e =>
          rw [execStep_mk_error agents fetchO cfg [] [] [r, s] [] r a arest
            e hdepR hcapR hD] at hpost ⊢
          rw [execStep_mk_skip agents fetchO cfg [] _ _ _ s
            (by rw [hsdep]; rfl)] at hpost ⊢
          simp at hpost
          exact absurd hpost.1.symm hne
      | ok body =>
          rw [execStep_mk_ok agents fetchO cfg [] [] [r, s] [] r a arest
            body hdepR hcapR hD] at hpost ⊢
          have hdepS : dependenciesMet ((r.type, body) :: []) s.dependsOn =
              true := by
            rw [hsdep, hrtype]
            rfl
          cases hcapS : findAgentsByCapability agents s.capability with
          | nil =>
              rw [execStep_mk_noAgent agents fetchO cfg
                ((r.type, body) :: []) _ _ _ s hdepS hcapS] at hpost ⊢
              simp at hpost
              exact absurd hpost.1.symm hne
          | cons a2 arest2 =>
              cases hD2 : delegateTask fetchO cfg.taskTimeout s.id with
              | ok body2 =>
                  rw [execStep_mk_ok agents fetchO cfg
                    ((r.type, body) :: []) _ _ _ s a2 arest2 body2 hdepS
                    hcapS hD2] at hpost ⊢
                  simp only [List.nil_append, List.cons_append] at hpost ⊢
                  simp at hpost
                  rcases hpost with ⟨h1, _, _⟩ | ⟨hu, ht⟩
                  · exact absurd h1.symm hne
                  · subst hu
                    subst ht
                    constructor
                    · apply List.Sublist.cons
                      apply List.Sublist.cons₂
                      apply List.Sublist.cons₂
                      apply List.nil_sublist
                    · rw [hstype, hrtype]
                      rfl
              | error e2 =>
                  rw [execStep_mk_error agents fetchO cfg
                    ((r.type, body) :: []) _ _ _ s a2 arest2 e2 hdepS
                    hcapS hD2] at hpost ⊢
                  simp only [List.nil_append, List.cons_append] at hpost ⊢
                  simp at hpost
                  rcases hpost with ⟨h1, _, _⟩ | ⟨hu, ht⟩
                  · exact absurd h1.symm hne
                  · subst hu
                    subst ht
                    constructor
                    · apply List.Sublist.cons
                      apply List.Sublist.cons₂
                      apply List.Sublist.cons₂
                      apply List.nil_sublist
                    · rw [hrtype]
                      rfl

/-! The claim theorems. -/

/-- Claim C1: subtasks are executed in ascending priority order; a
subtask with declared dependencies is delegated (a POST appears among its
step events) only when every named dependency has an entry in the results
map at that point; and in a detailed or comprehensive run a POST for the
summarize subtask, taskId-1, is always preceded in the trace by the
completion of the research subtask, taskId-0, whose result is in the
results map at the end of the run. -/
theorem claim_C1 :
    (∀ l : List Subtask,
      (sortByPriority l).Pairwise (fun a b => a.priority ≤ b.priority)) ∧
    (∀ (agents : List AgentInfo) (fetchO : FetchOracle) (cfg : Config)
      (s : ExecState) (st : Subtask) (deps : List String) (sid u : String)
      (t : Nat),
      st.dependsOn = some deps →
      Event.post sid u t ∈ stepEvents agents fetchO cfg s st →
      ∀ d ∈ deps, (s.results.lookup d).isSome = true) ∧
    (∀ (agents : List AgentInfo) (fetchO : FetchOracle) (cfg : Config)
      (taskId query depth u : String) (t : Nat),
      depth = "detailed" ∨ depth = "comprehensive" →
      Event.post (taskId ++ "-1") u t ∈
        (executeSubtasks agents fetchO cfg
          (addSubtasks taskId (decomposeQuery query depth))).trace →
      [Event.completed (taskId ++ "-0"),
        Event.post (taskId ++ "-1") u t].Sublist
        (executeSubtasks agents fetchO cfg
          (addSubtasks taskId (decomposeQuery query depth))).trace ∧
      ((executeSubtasks agents fetchO cfg
        (addSubtasks taskId (decomposeQuery query depth))).results.lookup
          "research").isSome = true) := by
  refine ⟨sortByPriority_pairwise, ?_, ?_⟩
  · intro agents fetchO cfg s st deps sid u t hdeps hpost
    have hmet := stepEvents_post_dependenciesMet hpost
    rw [hdeps] at hmet
    unfold dependenciesMet at hmet
    rw [List.all_eq_true] at hmet
    intro d hd
    exact hmet d hd
  · intro agents fetchO cfg taskId query depth u t hdepth hpost
    have hdec : decomposeQuery query depth =
        [{ type := "research"
           description := "Gather information about: " ++ query
           capability := "search"
           priority := 1
           dependsOn := none },
         { type := "summarize"
           description := "Summarize research findings"
           capability := "summarize"
           priority := 2
           dependsOn := some ["research"] }] := by
      rcases hdepth with rfl | rfl
      · unfold decomposeQuery
        rw [if_pos (Or.inr rfl)]
      · unfold decomposeQuery
        rw [if_pos (Or.inl rfl)]
    have hid0 : taskId ++ "-" ++ toString (0 : Nat) = taskId ++ "-0" := by
      rw [String.append_assoc]
      rfl
    have hid1 : taskId ++ "-" ++ toString (1 : Nat) = taskId ++ "-1" := by
      rw [String.append_assoc]
      rfl
    have hsubs : addSubtasks taskId (decomposeQuery query depth) =
        [{ id := taskId ++ "-0", type := "research"
           description := "Gather information about: " ++ query
           capability := "search", priority := 1, dependsOn := none
           status := "pending", result := none },
         { id := taskId ++ "-1", type := "summarize"
           description := "Summarize research findings"
           capability := "summarize", priority := 2
           dependsOn := some ["research"]
           status := "pending", result := none }] := by
      rw [hdec]
      simp only [addSubtasks, addSubtasksFrom]
      rw [hid0, hid1]
    rw [hsubs] at hpost ⊢
    have hne : (taskId ++ "-0") ≠ (taskId ++ "-1") :=
      append_ne_of_ne taskId (by decide)
    exact summarize_after_research agents fetchO cfg _ _ u t rfl rfl rfl
      rfl rfl rfl hne hpost

/-- Witness for C1: a concrete detailed run with one worker advertising
both capabilities, in which both delegations succeed. -/
theorem claim_C1_witness :
    [Event.completed ("T" ++ "-0"),
      Event.post ("T" ++ "-1") "http://w" 30000].Sublist
      (executeSubtasks
        [{ name := "W", url := "http://w",
           capabilities := ["search", "summarize"] }]
        (fun _ _ => .response 200 "data") defaultConfig
        (addSubtasks "T" (decomposeQuery "q" "detailed"))).trace ∧
    ((executeSubtasks
        [{ name := "W", url := "http://w",
           capabilities := ["search", "summarize"] }]
        (fun _ _ => .response 200 "data") defaultConfig
        (addSubtasks "T" (decomposeQuery "q" "detailed"))).results.lookup
      "research").isSome = true :=
  claim_C1.2.2
    [{ name := "W", url := "http://w",
       capabilities := ["search", "summarize"] }]
    (fun _ _ => .response 200 "data") defaultConfig
    "T" "q" "detailed" "http://w" 30000 (Or.inl rfl) (by decide)

/-- Claim C6: for every query with depth basic, or any depth other than
detailed or comprehensive, decomposeQuery returns exactly one subtask,
and it has type research, capability search, and priority 1. -/
theorem claim_C6 (query depth : String) (h1 : depth ≠ "detailed")
    (h2 : depth ≠ "comprehensive") :
    (decomposeQuery query depth).length = 1 ∧
    ∀ st ∈ decomposeQuery query depth,
      st.type = "research" ∧ st.capability = "search" ∧ st.priority = 1 := by
  unfold decomposeQuery
  rw [if_neg (by push_neg; exact ⟨h2, h1⟩)]
  refine ⟨rfl, ?_⟩
  intro st hst
  simp only [List.mem_singleton] at hst
  subst hst
  exact ⟨rfl, rfl, rfl⟩

/-- Witness for C6 at depth basic. -/
theorem claim_C6_witness :
    (decomposeQuery "What is Lean" "basic").length = 1 ∧
    ∀ st ∈ decomposeQuery "What is Lean" "basic",
      st.type = "research" ∧ st.capability = "search" ∧ st.priority = 1 :=
  claim_C6 "What is Lean" "basic" (by decide) (by decide)

/-- Claim C7: for depth detailed or comprehensive, decomposeQuery returns
exactly the research subtask with priority 1 followed by a summarize
subtask with priority 2 whose dependency list is exactly the singleton
research; no other depth value adds the summarize subtask. -/
theorem claim_C7 (query depth : String)
    (h : depth = "detailed" ∨ depth = "comprehensive") :
    decomposeQuery query depth =
      [{ type := "research"
         description := "Gather information about: " ++ query
         capability := "search"
         priority := 1
         dependsOn := none },
       { type := "summarize"
         description := "Summarize research findings"
         capability := "summarize"
         priority := 2
         dependsOn := some ["research"] }] ∧
    (∀ d, d ≠ "detailed" → d ≠ "comprehensive" →
      ∀ st ∈ decomposeQuery query d, st.type ≠ "summarize") := by
  constructor
  · unfold decomposeQuery
    rw [if_pos h.symm]
  · intro d hd1 hd2 st hst
    unfold decomposeQuery at hst
    rw [if_neg (by push_neg; exact ⟨hd2, hd1⟩)] at hst
    simp only [List.mem_singleton] at hst
    subst hst
    exact (by decide : ("research" : String) ≠ "summarize")

/-- Witness for C7 at depth comprehensive. -/
theorem claim_C7_witness :
    decomposeQuery "q" "comprehensive" =
      [{ type := "research"
         description := "Gather information about: " ++ "q"
         capability := "search"
         priority := 1
         dependsOn := none },
       { type := "summarize"
         description := "Summarize research findings"
         capability := "summarize"
         priority := 2
         dependsOn := some ["research"] }] ∧
    (∀ d, d ≠ "detailed" → d ≠ "comprehensive" →
      ∀ st ∈ decomposeQuery "q" d, st.type ≠ "summarize") :=
  claim_C7 "q" "comprehensive" (Or.inr rfl)

/-- Claim C10: areSubtasksComplete returns false for a task id that is not
in the task map and for a task whose subtask list is empty; for a task
with at least one subtask it returns true exactly when every subtask is
completed or failed. -/
theorem claim_C10 (tasks : List (String × TaskRec)) (taskId : String) :
    (tasks.lookup taskId = none → areSubtasksComplete tasks taskId = false) ∧
    (∀ t, tasks.lookup taskId = some t → t.subtasks = [] →
      areSubtasksComplete tasks taskId = false) ∧
    (∀ t, tasks.lookup taskId = some t → t.subtasks ≠ [] →
      (areSubtasksComplete tasks taskId = true ↔
        ∀ st ∈ t.subtasks,
          st.status = "completed" ∨ st.status = "failed")) := by
  refine ⟨?_, ?_, ?_⟩
  · intro h
    unfold areSubtasksComplete
    rw [h]
  · intro t ht hsub
    unfold areSubtasksComplete
    rw [ht]
    simp [hsub]
  · intro t ht hsub
    unfold areSubtasksComplete
    rw [ht]
    simp [hsub, List.all_eq_true]

/-- Witness for C10: a concrete map with one task whose two subtasks are
completed and failed evaluates to true. -/
theorem claim_C10_witness :
    areSubtasksComplete
      [("T",
        { id := "T"
          status := "in-progress"
          query := "q"
          depth := "basic"
          createdAt := 0
          updatedAt := 0
          subtasks :=
            [{ id := "T-0", type := "research", description := "d",
               capability := "search", priority := 1, dependsOn := none,
               status := "completed", result := none },
             { id := "T-1", type := "summarize", description := "d",
               capability := "summarize", priority := 2,
               dependsOn := some ["research"], status := "failed",
               result := none }]
          results := [] })] "T" = true := by
  have h := claim_C10
    [("T",
      { id := "T"
        status := "in-progress"
        query := "q"
        depth := "basic"
        createdAt := 0
        updatedAt := 0
        subtasks :=
          [{ id := "T-0", type := "research", description := "d",
             capability := "search", priority := 1, dependsOn := none,
             status := "completed", result := none },
           { id := "T-1", type := "summarize", description := "d",
             capability := "summarize", priority := 2,
             dependsOn := some ["research"], status := "failed",
             result := none }]
        results := [] })] "T"
  exact (h.2.2 _ rfl (by decide)).mpr (by decide)

/-- Claim C8: the cleanup sweep deletes a task only when its status is
completed or failed and it has not been updated for more than maxAge
(default one hour), so non-terminal tasks are never deleted; and cleanup
never removes an agent entry, it only sets the status to offline when the
lastSeen timestamp is more than 60 seconds old. -/
theorem claim_C8 (now maxAge : Int) (s : StateRec) :
    (∀ p ∈ s.tasks, p ∉ (cleanup now maxAge s).tasks →
      (p.2.status = "completed" ∨ p.2.status = "failed") ∧
        now - p.2.updatedAt > maxAge) ∧
    (∀ p ∈ s.tasks, p.2.status ≠ "completed" → p.2.status ≠ "failed" →
      p ∈ (cleanup now maxAge s).tasks) ∧
    ((cleanup now maxAge s).agentStatus.map Prod.fst =
      s.agentStatus.map Prod.fst) ∧
    (∀ p ∈ s.agentStatus,
      (now - p.2.lastSeen > 60000 →
        (p.1, { p.2 with status := "offline" }) ∈
          (cleanup now maxAge s).agentStatus) ∧
      (¬ now - p.2.lastSeen > 60000 →
        p ∈ (cleanup now maxAge s).agentStatus)) ∧
    cleanupDefault now s = cleanup now 3600000 s := by
  refine ⟨?_, ?_, ?_, ?_, rfl⟩
  · intro p hp hnp
    unfold cleanup at hnp
    simp only [List.mem_filter] at hnp
    push_neg at hnp
    have hexp := hnp hp
    have hexp2 : taskExpired now maxAge p.2 = true := by
      revert hexp
      cases taskExpired now maxAge p.2 <;> simp
    unfold taskExpired at hexp2
    simp only [Bool.and_eq_true, Bool.or_eq_true, beq_iff_eq,
      decide_eq_true_eq] at hexp2
    exact ⟨hexp2.2, hexp2.1⟩
  · intro p hp h1 h2
    unfold cleanup
    simp only [List.mem_filter]
    refine ⟨hp, ?_⟩
    unfold taskExpired
    simp [h1, h2]
  · unfold cleanup
    simp only [List.map_map]
    apply List.map_congr_left
    intro p _
    simp only [Function.comp_apply]
    by_cases hc : now - p.2.lastSeen > 60000
    · rw [if_pos hc]
    · rw [if_neg hc]
  · intro p hp
    constructor
    · intro hc
      unfold cleanup
      simp only [List.mem_map]
      exact ⟨p, hp, by rw [if_pos hc]⟩
    · intro hc
      unfold cleanup
      simp only [List.mem_map]
      exact ⟨p, hp, by rw [if_neg hc]⟩

/-- Witness for C8: with one stale completed task, one stale pending
task and one stale agent, the pending task is retained and the agent is
flagged offline but kept. -/
theorem claim_C8_witness :
    (("P",
      ({ id := "P", status := "pending", query := "q", depth := "basic",
         createdAt := 0, updatedAt := 0, subtasks := [],
         results := [] } : TaskRec)) ∈
      (cleanup 7200000 3600000
        { tasks :=
            [("P",
              { id := "P", status := "pending", query := "q",
                depth := "basic", createdAt := 0, updatedAt := 0,
                subtasks := [], results := [] })]
          sessions := []
          agentStatus := [("A", { status := "online", lastSeen := 0 })] }).tasks) ∧
    (("A", ({ status := "offline", lastSeen := 0 } : StoredAgent)) ∈
      (cleanup 7200000 3600000
        { tasks :=
            [("P",
              { id := "P", status := "pending", query := "q",
                depth := "basic", createdAt := 0, updatedAt := 0,
                subtasks := [], results := [] })]
          sessions := []
          agentStatus := [("A", { status := "online", lastSeen := 0 })] }).agentStatus) := by
  have h := claim_C8 7200000 3600000
    { tasks :=
        [("P",
          { id := "P", status := "pending", query := "q", depth := "basic",
            createdAt := 0, updatedAt := 0, subtasks := [], results := [] })]
      sessions := []
      agentStatus := [("A", { status := "online", lastSeen := 0 })] }
  constructor
  · exact h.2.1 _ (by decide) (by decide) (by decide)
  · exact (h.2.2.2.1 ("A", { status := "online", lastSeen := 0 })
      (by decide)).1 (by decide)

/-- Claim C9: a registration request whose name equals the name of an
already-registered agent gets status 409 with error Name already taken,
and no new agent or API key is created; 409 is not among the error codes
400, 401, 403, 404, 500. -/
theorem claim_C9 (agents : List RegAgent) (name newId newKey : String)
    (a : RegAgent) (ha : a ∈ agents) (hname : a.name = name)
    (hvalid : ∀ b ∈ agents,
      (jsTrim b.name).length ≠ 0 ∧ b.name.length ≤ 50) :
    registerPOST agents (some name) newId newKey =
      (409, "Name already taken", agents) ∧
    (409 : Nat) ∉ ([400, 401, 403, 404, 500] : List Nat) := by
  have h0 : ¬ (jsTrim name).length = 0 := hname ▸ (hvalid a ha).1
  have h50 : ¬ name.length > 50 := by
    have := (hvalid a ha).2
    rw [hname] at this
    omega
  have hfind : (agents.find? (fun b => b.name == name)).isSome := by
    rw [List.find?_isSome]
    exact ⟨a, ha, by simp [hname]⟩
  obtain ⟨b, hb⟩ := Option.isSome_iff_exists.mp hfind
  simp only [registerPOST]
  rw [if_neg h0, if_neg h50, hb]
  exact ⟨rfl, by decide⟩

/-- Claim C4: a subtask whose required capability no registered agent
advertises is marked failed with the error No capable agent available and
the loop continues, so that every subtask of the run, in particular every
remaining one, is still reached and produces a trace event. -/
theorem claim_C4 :
    (∀ (agents : List AgentInfo) (fetchO : FetchOracle) (cfg : Config)
      (s : ExecState) (st : Subtask),
      dependenciesMet s.results st.dependsOn = true →
      findAgentsByCapability agents st.capability = [] →
      execStep agents fetchO cfg s st =
        { s with
          subs := updateSubtaskIn s.subs st.id "failed"
            (some (.errorMsg "No capable agent available"))
          trace := s.trace ++ [.noAgent st.id] }) ∧
    (∀ (agents : List AgentInfo) (fetchO : FetchOracle) (cfg : Config)
      (subtasks : List Subtask), ∀ st ∈ subtasks,
      ∃ e ∈ (executeSubtasks agents fetchO cfg subtasks).trace,
        e.sid = st.id) := by
  constructor
  · intro agents fetchO cfg s st hdep hcap
    exact execStep_noAgent hdep hcap
  · intro agents fetchO cfg subtasks st hst
    exact foldl_attempted agents fetchO cfg (sortByPriority subtasks)
      (initState subtasks) st (mem_sortByPriority.mpr hst)

/-- Witness for C4: with no registered agents, the single research subtask
of a basic run ends failed with the no-capable-agent error. -/
theorem claim_C4_witness :
    execStep [] (fun _ _ => .netError "refused") defaultConfig
      (initState (addSubtasks "T" (decomposeQuery "q" "basic")))
      { id := "T" ++ "-" ++ toString 0, type := "research",
        description := "Gather information about: " ++ "q",
        capability := "search", priority := 1, dependsOn := none,
        status := "pending", result := none } =
      { initState (addSubtasks "T" (decomposeQuery "q" "basic")) with
        subs := updateSubtaskIn
          (initState (addSubtasks "T" (decomposeQuery "q" "basic"))).subs
          ("T" ++ "-" ++ toString 0) "failed"
          (some (.errorMsg "No capable agent available"))
        trace := (initState (addSubtasks "T" (decomposeQuery "q" "basic"))).trace
          ++ [.noAgent ("T" ++ "-" ++ toString 0)] } :=
  claim_C4.1 [] (fun _ _ => .netError "refused") defaultConfig
    (initState (addSubtasks "T" (decomposeQuery "q" "basic")))
    { id := "T" ++ "-" ++ toString 0, type := "research",
      description := "Gather information about: " ++ "q",
      capability := "search", priority := 1, dependsOn := none,
      status := "pending", result := none }
    (by decide) (by decide)

/-- Claim C2: a subtask reached with an unmet dependency is skipped with
no status update at all: the loop state is unchanged apart from a skip
event, the record with its id is untouched at the end of the run (so a
pending subtask stays pending and is never marked failed), and no
delegation POST for it ever appears in the trace. -/
theorem claim_C2 :
    (∀ (agents : List AgentInfo) (fetchO : FetchOracle) (cfg : Config)
      (s : ExecState) (st : Subtask),
      dependenciesMet s.results st.dependsOn = false →
      execStep agents fetchO cfg s st =
        { s with trace := s.trace ++ [.skip st.id] }) ∧
    (∀ (agents : List AgentInfo) (fetchO : FetchOracle) (cfg : Config)
      (subtasks l₁ : List Subtask) (st : Subtask) (l₂ : List Subtask),
      sortByPriority subtasks = l₁ ++ st :: l₂ →
      ((sortByPriority subtasks).map Subtask.id).Nodup →
      dependenciesMet
        (l₁.foldl (execStep agents fetchO cfg) (initState subtasks)).results
        st.dependsOn = false →
      findSub (executeSubtasks agents fetchO cfg subtasks).subs st.id =
        findSub subtasks st.id ∧
      (executeSubtasks agents fetchO cfg subtasks).trace.countP
        (isPostFor st.id) = 0) := by
  constructor
  · intro agents fetchO cfg s st hdep
    exact execStep_skip hdep
  · intro agents fetchO cfg subtasks l₁ st l₂ hsort hnd hdep
    have hids : (l₁.map Subtask.id ++ st.id :: l₂.map Subtask.id).Nodup := by
      rw [hsort] at hnd
      simpa using hnd
    have h₁ : ∀ x ∈ l₁, x.id ≠ st.id := by
      intro x hx heq
      have hdisj := (List.nodup_append.mp hids).2.2
      exact hdisj (List.mem_map_of_mem Subtask.id hx)
        (by rw [heq]; exact List.mem_cons_self _ _)
    have h₂ : ∀ x ∈ l₂, x.id ≠ st.id := by
      have hcons := (List.nodup_append.mp hids).2.1
      rw [List.nodup_cons] at hcons
      intro x hx heq
      exact hcons.1 (by rw [← heq]; exact List.mem_map_of_mem Subtask.id hx)
    unfold executeSubtasks
    rw [hsort, List.foldl_append, List.foldl_cons, execStep_skip hdep]
    constructor
    · rw [findSub_foldl_ne agents fetchO cfg l₂ _ st.id h₂]
      show findSub
        (l₁.foldl (execStep agents fetchO cfg) (initState subtasks)).subs
          st.id = _
      rw [findSub_foldl_ne agents fetchO cfg l₁ _ st.id h₁]
      rfl
    · rw [countP_foldl_trace_zero agents fetchO cfg l₂ _ st.id h₂]
      show ((l₁.foldl (execStep agents fetchO cfg)
          (initState subtasks)).trace ++ [Event.skip st.id]).countP
        (isPostFor st.id) = 0
      rw [List.countP_append,
        countP_foldl_trace_zero agents fetchO cfg l₁ _ st.id h₁]
      simp [initState, isPostFor]

/-- Claim C3: every research request with a non-empty query creates a
task that ends with status completed, whatever the subtask outcomes are,
and no subtask outcome aborts the rest: every decomposed subtask of the
run produces a trace event. -/
theorem claim_C3 (agents : List AgentInfo) (fetchO : FetchOracle)
    (cfg : Config) (now : Int) (taskId query : String)
    (depth? : Option String) (hq : query ≠ "") :
    ∃ t tr,
      handleResearch agents fetchO cfg now taskId query depth? =
        some (t, tr) ∧
      t.status = "completed" ∧
      ∀ st ∈ addSubtasks taskId (decomposeQuery query (depth?.getD "basic")),
        ∃ e ∈ tr, e.sid = st.id := by
  unfold handleResearch
  rw [if_neg hq]
  refine ⟨_, _, rfl, rfl, ?_⟩
  intro st hst
  show ∃ e ∈ (executeSubtasks agents fetchO cfg
    (addSubtasks taskId
      (decomposeQuery query (depth?.getD "basic")))).trace, e.sid = st.id
  unfold executeSubtasks
  exact foldl_attempted agents fetchO cfg _ _ st (mem_sortByPriority.mpr hst)

/-- Witness for C3: a run with no agents at all, in which every subtask
fails, still ends with the task completed. -/
theorem claim_C3_witness :
    ∃ t tr,
      handleResearch [] (fun _ _ => .netError "refused") defaultConfig 0
        "T" "q" (some "comprehensive") = some (t, tr) ∧
      t.status = "completed" ∧
      ∀ st ∈ addSubtasks "T"
        (decomposeQuery "q" ((some "comprehensive").getD "basic")),
        ∃ e ∈ tr, e.sid = st.id :=
  claim_C3 [] (fun _ _ => .netError "refused") defaultConfig 0 "T" "q"
    (some "comprehensive") (by decide)

/-- Witness for C2: in a detailed run with no registered agents the
research subtask fails, so the summarize subtask is reached with its
dependency missing: its record is untouched and no POST for it is ever
made. -/
theorem claim_C2_witness :
    dependenciesMet
      ([{ id := "T-0", type := "research",
          description := "Gather information about: q",
          capability := "search", priority := 1, dependsOn := none,
          status := "pending", result := none }].foldl
        (execStep [] (fun _ _ => .netError "refused") defaultConfig)
        (initState (addSubtasks "T" (decomposeQuery "q" "detailed")))).results
      (some ["research"]) = false ∧
    findSub
      (executeSubtasks [] (fun _ _ => .netError "refused") defaultConfig
        (addSubtasks "T" (decomposeQuery "q" "detailed"))).subs "T-1" =
      findSub (addSubtasks "T" (decomposeQuery "q" "detailed")) "T-1" ∧
    (executeSubtasks [] (fun _ _ => .netError "refused") defaultConfig
      (addSubtasks "T" (decomposeQuery "q" "detailed"))).trace.countP
      (isPostFor "T-1") = 0 := by
  have h := claim_C2.2 [] (fun _ _ => .netError "refused") defaultConfig
    (addSubtasks "T" (decomposeQuery "q" "detailed"))
    [{ id := "T-0", type := "research",
       description := "Gather information about: q",
       capability := "search", priority := 1, dependsOn := none,
       status := "pending", result := none }]
    { id := "T-1", type := "summarize",
      description := "Summarize research findings",
      capability := "summarize", priority := 2,
      dependsOn := some ["research"], status := "pending", result := none }
    []
    (by decide) (by decide) (by decide)
  exact ⟨by decide, h.1, h.2⟩

/-- Claim C5: a delegated subtask gets exactly one POST, always with the
configured timeout; a non-2xx response or a network failure marks the
subtask failed with the error message and the loop goes on; and the
retryAttempts configuration value is never read: the loop depends on the
configuration only through taskTimeout. -/
theorem claim_C5 :
    (∀ (fetchO : FetchOracle) (timeout : Nat) (sid : String)
      (status : Nat) (body : String),
      fetchO timeout sid = .response status body →
      ¬(200 ≤ status ∧ status ≤ 299) →
      delegateTask fetchO timeout sid =
        .error ("Agent returned " ++ toString status)) ∧
    (∀ (fetchO : FetchOracle) (timeout : Nat) (sid m : String),
      fetchO timeout sid = .netError m →
      delegateTask fetchO timeout sid = .error m) ∧
    (∀ (agents : List AgentInfo) (fetchO : FetchOracle) (cfg : Config)
      (s : ExecState) (st : Subtask) (a : AgentInfo)
      (rest : List AgentInfo) (e : String),
      dependenciesMet s.results st.dependsOn = true →
      findAgentsByCapability agents st.capability = a :: rest →
      delegateTask fetchO cfg.taskTimeout st.id = .error e →
      execStep agents fetchO cfg s st =
        { s with
          subs := updateSubtaskIn
            (updateSubtaskIn s.subs st.id "in-progress" none)
            st.id "failed" (some (.errorMsg e))
          trace := s.trace ++
            [.post st.id a.url cfg.taskTimeout, .failed st.id e] }) ∧
    (∀ (agents : List AgentInfo) (fetchO : FetchOracle) (cfg : Config)
      (subtasks : List Subtask) (sid : String),
      ((sortByPriority subtasks).map Subtask.id).Nodup →
      (executeSubtasks agents fetchO cfg subtasks).trace.countP
        (isPostFor sid) ≤ 1) ∧
    (∀ (agents : List AgentInfo) (fetchO : FetchOracle) (cfg : Config)
      (subtasks : List Subtask) (sid u : String) (t : Nat),
      Event.post sid u t ∈
        (executeSubtasks agents fetchO cfg subtasks).trace →
      t = cfg.taskTimeout) ∧
    (∀ (agents : List AgentInfo) (fetchO : FetchOracle) (c c' : Config),
      c.taskTimeout = c'.taskTimeout →
      ∀ subtasks, executeSubtasks agents fetchO c subtasks =
        executeSubtasks agents fetchO c' subtasks) := by
  refine ⟨?_, ?_, ?_, ?_, ?_, ?_⟩
  · intro fetchO timeout sid status body hresp hbad
    simp only [delegateTask, hresp]
    rw [if_neg hbad]
  · intro fetchO timeout sid m hnet
    simp only [delegateTask, hnet]
  · intro agents fetchO cfg s st a rest e hdep hcap herr
    exact execStep_delegate_error hdep hcap herr
  · intro agents fetchO cfg subtasks sid hnd
    unfold executeSubtasks
    refine le_trans
      (countP_foldl_trace_le agents fetchO cfg _ (initState subtasks) sid) ?_
    have hcount :
        (sortByPriority subtasks).countP (fun st => st.id == sid) =
          ((sortByPriority subtasks).map Subtask.id).count sid := by
      rw [List.count, List.countP_map]
      rfl
    have hle := List.nodup_iff_count_le_one.mp hnd sid
    simp only [initState, List.countP_nil]
    omega
  · intro agents fetchO cfg subtasks sid u t hmem
    unfold executeSubtasks at hmem
    rcases post_timeout_foldl agents fetchO cfg _ _ hmem with hmem | ht
    · simp [initState] at hmem
    · exact ht
  · intro agents fetchO c c' h subtasks
    exact executeSubtasks_taskTimeout agents fetchO h subtasks

/-- Witness for C5: a 500 response turns into a failed delegation with the
Agent returned 500 message. -/
theorem claim_C5_witness :
    delegateTask (fun _ _ => .response 500 "oops") 30000 "T-0" =
      .error ("Agent returned " ++ toString 500) :=
  claim_C5.1 (fun _ _ => .response 500 "oops") 30000 "T-0" 500 "oops"
    rfl (by decide)

/-- Witness for C9: re-registering the name Alice against a storage that
already holds an agent named Alice. -/
theorem claim_C9_witness :
    registerPOST [{ id := "agent_1", name := "Alice", apiKey := "sk_test_1" }]
      (some "Alice") "agent_2" "sk_test_2" =
      (409, "Name already taken",
        [{ id := "agent_1", name := "Alice", apiKey := "sk_test_1" }]) ∧
    (409 : Nat) ∉ ([400, 401, 403, 404, 500] : List Nat) :=
  claim_C9 [{ id := "agent_1", name := "Alice", apiKey := "sk_test_1" }]
    "Alice" "agent_2" "sk_test_2"
    { id := "agent_1", name := "Alice", apiKey := "sk_test_1" }
    (by decide) (by decide) (by decide)

end AgentApps
